import Mathlib

/-!
Verification of the JSON-Schema-to-regex translator
(`outlines/text/json_schema.py`).

The development has three layers:

1. `Rgx`: a core regular-expression type over `Char` with a
   character-predicate atom, its language semantics `matches'`, and a
   Brzozowski-derivative matcher `rmatch` proved equivalent to the
   semantics.
2. `RSyn`: a syntax-level regex AST whose `render` function produces the
   concrete pattern text byte-for-byte (escapes, hex classes, groups,
   quantifiers), and whose `core` function gives it `Rgx` semantics.
   The regex fragments the translator emits are written as `RSyn` values
   and proved to render to exactly the emitted strings, so that
   acceptance claims about emitted patterns can be settled on `core`.
3. The translator itself: a JSON value model, a resolver model, and
   `to_regex`, a fuel-indexed transcription of the Python function of the
   same name. Fuel decreases by one on every recursive call; all claims
   are stated with enough fuel, so fuel exhaustion never interferes.
-/

/-- Core regular expressions over `Char`. `pred p` matches any single
character `c` with `p c = true`; the remaining constructors are the
standard Kleene operations. -/
inductive Rgx : Type
  | zero : Rgx
  | eps : Rgx
  | pred : (Char → Bool) → Rgx
  | plus : Rgx → Rgx → Rgx
  | comp : Rgx → Rgx → Rgx
  | star : Rgx → Rgx

namespace Rgx

/-- Language semantics of a core regex. -/
def matches' : Rgx → Language Char
  | zero => 0
  | eps => 1
  | pred p => {w | ∃ c, p c = true ∧ w = [c]}
  | plus P Q => P.matches' + Q.matches'
  | comp P Q => P.matches' * Q.matches'
  | star P => KStar.kstar P.matches'

/-- Whether a regex accepts the empty word. -/
def matchEps : Rgx → Bool
  | zero => false
  | eps => true
  | pred _ => false
  | plus P Q => P.matchEps || Q.matchEps
  | comp P Q => P.matchEps && Q.matchEps
  | star _ => true

/-- Brzozowski derivative with respect to one character. -/
def deriv : Rgx → Char → Rgx
  | zero, _ => zero
  | eps, _ => zero
  | pred p, c => if p c then eps else zero
  | plus P Q, c => plus (P.deriv c) (Q.deriv c)
  | comp P Q, c =>
      if P.matchEps then plus (comp (P.deriv c) Q) (Q.deriv c)
      else comp (P.deriv c) Q
  | star P, c => comp (P.deriv c) (star P)

/-- Executable matcher: repeated derivatives, then a nullability test. -/
def rmatch : Rgx → List Char → Bool
  | P, [] => P.matchEps
  | P, c :: w => (P.deriv c).rmatch w

end Rgx

/-- One character inside a character class, remembered together with the
way it is spelled in the pattern text: a plain character, a backslash
escape, or a two-digit hex escape. -/
inductive CChar : Type
  | lit : Char → CChar
  | esc : Char → CChar
  | hex : Char → Char → CChar

/-- Value of a backslash escape: `\n`, `\t`, `\r` denote control
characters; every other escaped character denotes itself. -/
def escVal (c : Char) : Char :=
  if c = 'n' then '\n' else if c = 't' then '\t' else if c = 'r' then '\r' else c

/-- Numeric value of one hexadecimal digit. -/
def hexVal (c : Char) : Nat :=
  if '0' ≤ c ∧ c ≤ '9' then c.toNat - 48
  else if 'a' ≤ c ∧ c ≤ 'f' then c.toNat - 87
  else if 'A' ≤ c ∧ c ≤ 'F' then c.toNat - 55
  else 0

/-- The character a class element denotes. -/
def CChar.val : CChar → Char
  | .lit c => c
  | .esc c => escVal c
  | .hex a b => Char.ofNat (16 * hexVal a + hexVal b)

/-- The pattern text of a class element. -/
def CChar.render : CChar → String
  | .lit c => String.singleton c
  | .esc c => "\\" ++ String.singleton c
  | .hex a b => "\\x" ++ String.singleton a ++ String.singleton b

/-- One item of a character class: a single character or a range. -/
inductive CItem : Type
  | one : CChar → CItem
  | rng : CChar → CChar → CItem

/-- Whether a character belongs to a class item (ranges compare code
points, as the regex engine does). -/
def CItem.test : CItem → Char → Bool
  | .one c, x => x == c.val
  | .rng a b, x => a.val.toNat ≤ x.toNat && x.toNat ≤ b.val.toNat

/-- The pattern text of a class item. -/
def CItem.render : CItem → String
  | .one c => c.render
  | .rng a b => a.render ++ "-" ++ b.render

/-- Whether a character belongs to a (possibly negated) class. -/
def clsTest (neg : Bool) (items : List CItem) (x : Char) : Bool :=
  (items.any (fun i => i.test x)) != neg

/-- Syntax-level regular expressions: each constructor corresponds to one
piece of concrete pattern text, so `render` reproduces a pattern
byte-for-byte while `core` gives it `Rgx` semantics. Quantifiers are only
ever applied to single-atom operands and alternation only ever appears
directly inside a group, mirroring the translator's output shapes, so the
rendered text parses back to the same structure. -/
inductive RSyn : Type
  | eps : RSyn
  | chr : Char → RSyn
  | esc : Char → RSyn
  | dot : RSyn
  | cls : Bool → List CItem → RSyn
  | grp : RSyn → RSyn
  | grpNC : RSyn → RSyn
  | cat : RSyn → RSyn → RSyn
  | alt : RSyn → RSyn → RSyn
  | star : RSyn → RSyn
  | opt : RSyn → RSyn
  | rep1 : RSyn → RSyn
  | rep : RSyn → Nat → Nat → RSyn

/-- The concrete pattern text of a syntax-level regex. -/
def RSyn.render : RSyn → String
  | .eps => ""
  | .chr c => String.singleton c
  | .esc c => "\\" ++ String.singleton c
  | .dot => "."
  | .cls neg items => "[" ++ (if neg then "^" else "")
      ++ String.join (items.map CItem.render) ++ "]"
  | .grp r => "(" ++ r.render ++ ")"
  | .grpNC r => "(?:" ++ r.render ++ ")"
  | .cat r s => r.render ++ s.render
  | .alt r s => r.render ++ "|" ++ s.render
  | .star r => r.render ++ "*"
  | .opt r => r.render ++ "?"
  | .rep1 r => r.render ++ "+"
  | .rep r lo hi => r.render ++ "\x7b" ++ toString lo ++ "," ++ toString hi ++ "\x7d"

/-- n-fold concatenation of a core regex. -/
def powR (r : Rgx) : Nat → Rgx
  | 0 => .eps
  | n + 1 => .comp r (powR r n)

/-- n-fold concatenation of an optional core regex. -/
def optPowR (r : Rgx) : Nat → Rgx
  | 0 => .eps
  | n + 1 => .comp (.plus .eps r) (optPowR r n)

/-- Core (semantic) regex of a syntax-level regex: groups are
transparent, `.` matches anything but a newline, classes become
predicates, and `r{lo,hi}` becomes `lo` copies of `r` followed by
`hi - lo` optional copies. -/
def RSyn.core : RSyn → Rgx
  | .eps => .eps
  | .chr c => .pred (fun x => x == c)
  | .esc c => .pred (fun x => x == escVal c)
  | .dot => .pred (fun x => x != '\n')
  | .cls neg items => .pred (clsTest neg items)
  | .grp r => r.core
  | .grpNC r => r.core
  | .cat r s => .comp r.core s.core
  | .alt r s => .plus r.core s.core
  | .star r => .star r.core
  | .opt r => .plus .eps r.core
  | .rep1 r => .comp r.core (.star r.core)
  | .rep r lo hi => .comp (powR r.core lo) (optPowR r.core (hi - lo))

/-- A sequence of plain characters as a syntax-level regex. -/
def litSyn (s : String) : RSyn :=
  s.data.foldr (fun c r => RSyn.cat (RSyn.chr c) r) RSyn.eps

/-- A double-quoted literal as a syntax-level regex. -/
def qlit (s : String) : RSyn :=
  litSyn ("\"" ++ s ++ "\"")

/-- A list of fragments in sequence. -/
def seqList (rs : List RSyn) : RSyn :=
  rs.foldr RSyn.cat RSyn.eps

/-- Source constant `STRING_INNER`: one inner character of a JSON string
body — anything but a quote, a backslash or a control character, or a
backslash-escaped pair. -/
def STRING_INNER : String := "(?:[^\"\\\\\\x00-\\x1f\\x7f-\\x9f]|\\\\.)"

/-- Source constant `STRING`. -/
def STRING : String := "\"" ++ STRING_INNER ++ "*\""

/-- Source constant `INTEGER`. -/
def INTEGER : String := "(0|[1-9][0-9]*)"

/-- Source constant `NUMBER`. -/
def NUMBER : String := "(-)?(" ++ INTEGER ++ ")(\\.[0-9]+)?([eE][+-][0-9]+)?"

/-- Source constant `BOOLEAN`. -/
def BOOLEAN : String := "(true|false)"

/-- Source constant `NULL`. -/
def NULL : String := "null"

/-- Source table `type_to_regex`. -/
def type_to_regex : String → Option String
  | "string" => some STRING
  | "integer" => some INTEGER
  | "number" => some NUMBER
  | "boolean" => some BOOLEAN
  | "null" => some NULL
  | _ => none

/-- The `whitespace` fragment of `to_regex`: the class of newline and
space, repeated. -/
def whitespace : String := "[\n ]*"

/-- Syntax-level regex of `whitespace`. -/
def wsSyn : RSyn :=
  RSyn.star (RSyn.cls false [CItem.one (CChar.lit '\n'), CItem.one (CChar.lit ' ')])

/-- Syntax-level regex of `STRING_INNER`. -/
def stringInnerSyn : RSyn :=
  RSyn.grpNC (RSyn.alt
    (RSyn.cls true
      [CItem.one (CChar.lit '"'),
       CItem.one (CChar.esc '\\'),
       CItem.rng (CChar.hex '0' '0') (CChar.hex '1' 'f'),
       CItem.rng (CChar.hex '7' 'f') (CChar.hex '9' 'f')])
    (RSyn.cat (RSyn.esc '\\') RSyn.dot))

/-- Syntax-level regex of `STRING`. -/
def stringSyn : RSyn :=
  RSyn.cat (RSyn.chr '"') (RSyn.cat (RSyn.star stringInnerSyn) (RSyn.chr '"'))

/-- The class `[0-9]`. -/
def digitSyn : RSyn := RSyn.cls false [CItem.rng (CChar.lit '0') (CChar.lit '9')]

/-- Syntax-level regex of `INTEGER`. -/
def integerSyn : RSyn :=
  RSyn.grp (RSyn.alt (RSyn.chr '0')
    (RSyn.cat (RSyn.cls false [CItem.rng (CChar.lit '1') (CChar.lit '9')])
      (RSyn.star digitSyn)))

/-- Syntax-level regex of `NUMBER`. -/
def numberSyn : RSyn :=
  RSyn.cat (RSyn.opt (RSyn.grp (RSyn.chr '-')))
    (RSyn.cat (RSyn.grp integerSyn)
      (RSyn.cat
        (RSyn.opt (RSyn.grp (RSyn.cat (RSyn.esc '.') (RSyn.rep1 digitSyn))))
        (RSyn.opt (RSyn.grp
          (RSyn.cat (RSyn.cls false [CItem.one (CChar.lit 'e'), CItem.one (CChar.lit 'E')])
            (RSyn.cat (RSyn.cls false [CItem.one (CChar.lit '+'), CItem.one (CChar.lit '-')])
              (RSyn.rep1 digitSyn)))))))

/-- JSON values, modelling the parsed schema document. Objects keep their
keys in declaration order, as Python dicts do. -/
inductive JVal : Type
  | null : JVal
  | bool : Bool → JVal
  | int : Int → JVal
  | str : String → JVal
  | arr : List JVal → JVal
  | obj : List (String × JVal) → JVal

/-- A schema node as the translator receives it: a Python dict. -/
abbrev Jdict := List (String × JVal)

/-- The resolver interface: a reference string either resolves to a
schema value or fails (`ReferenceResolutionError`). -/
abbrev Resolver := String → Option JVal

/-- Key lookup in a dict (`k in instance` / `instance[k]`). -/
def lookupKey (inst : Jdict) (k : String) : Option JVal :=
  match inst.find? (fun p => p.1 == k) with
  | some p => some p.2
  | none => none

/-- The ways the translator can fail. `unsupported` is the
`NotImplementedError` naming the offending node; `keyError`,
`indexError` and `typeErr` model the corresponding Python runtime
errors; `refError` models `ReferenceResolutionError`; `fuelOut` is a
model artifact for exhausted recursion fuel. -/
inductive JErr : Type
  | unsupported : Jdict → JErr
  | keyError : String → JErr
  | indexError : JErr
  | typeErr : JErr
  | refError : String → JErr
  | fuelOut : JErr

/-- A recursive `to_regex` call requires its argument to be a dict;
anything else would fault in Python when tested for key membership
or subscripted. -/
def asObj : JVal → Except JErr Jdict
  | .obj kvs => .ok kvs
  | _ => .error JErr.typeErr

mutual
/-- Python `repr` for the JSON values a schema can hold (exact for
`None`, booleans, integers, and strings free of quotes, backslashes
and control characters — the shapes schema enum members take). -/
def pyRepr : JVal → String
  | .null => "None"
  | .bool true => "True"
  | .bool false => "False"
  | .int n => toString n
  | .str s => "'" ++ s ++ "'"
  | .arr xs => "[" ++ String.intercalate ", " (pyReprList xs) ++ "]"
  | .obj kvs => "\x7b" ++ String.intercalate ", " (pyReprObj kvs) ++ "\x7d"

/-- `repr` of each element of a list. -/
def pyReprList : List JVal → List String
  | [] => []
  | x :: xs => pyRepr x :: pyReprList xs

/-- `repr` of each `key: value` entry of a dict. -/
def pyReprObj : List (String × JVal) → List String
  | [] => []
  | (k, v) :: xs => ("'" ++ k ++ "': " ++ pyRepr v) :: pyReprObj xs
end

/-- Python `str` (as used by f-string interpolation): identity on
strings, `repr`-like elsewhere. -/
def pyStr : JVal → String
  | .str s => s
  | v => pyRepr v

/-- The characters Python `re.escape` prefixes with a backslash. -/
def reSpecials : List Char :=
  ['(', ')', '[', ']', '\x7b', '\x7d', '?', '*', '+', '-', '|', '^', '$',
   '\\', '.', '&', '~', '#', ' ', '\t', '\n', '\r', '\x0b', '\x0c']

/-- Python `re.escape`. -/
def reEscape (s : String) : String :=
  String.mk (s.data.flatMap (fun c => if c ∈ reSpecials then ['\\', c] else [c]))

/-- Python `int(x)` applied to a JSON value: `.ok (some n)` on success,
`.ok none` when it raises `ValueError` (which the caller catches), and
`.error` when it raises `TypeError` (which propagates). -/
def pyIntAttempt : JVal → Except JErr (Option Int)
  | .int n => .ok (some n)
  | .bool b => .ok (some (if b then 1 else 0))
  | .str s => .ok s.toInt?
  | _ => .error JErr.typeErr

/-- Python `itertools.permutations(l, r)`: all length-`r` ordered
arrangements of distinct positions of `l`, emitted in lexicographic
order of the chosen index tuples. -/
def pyPermutations : Nat → List α → List (List α)
  | 0, _ => [[]]
  | r + 1, l =>
      l.enum.flatMap (fun p =>
        (pyPermutations r (l.eraseIdx p.1)).map (fun q => p.2 :: q))

/-- The `combinations` list of the `anyOf` branch: every ordered
arrangement of every non-empty subset of the subschema fragments, each
concatenated and wrapped in a group. -/
def anyOfCombos (subs : List String) : List String :=
  (List.range' 1 subs.length).flatMap (fun r =>
    (pyPermutations r subs).map (fun c => "(" ++ String.join c ++ ")"))

/-- The five singleton type nodes used by the `array` branch when
`items` is absent. -/
def arrayDefaultItemTypes : List Jdict :=
  [[("type", JVal.str "boolean")],
   [("type", JVal.str "null")],
   [("type", JVal.str "number")],
   [("type", JVal.str "integer")],
   [("type", JVal.str "string")]]

/-- Transcription of `to_regex` from `outlines/text/json_schema.py`,
indexed by recursion fuel (decremented on every recursive call; the
Python original recurses without bound and a `$ref` cycle overflows the
stack). The keyword branches are tried in the source's order:
`properties`, `allOf`, `anyOf`, `oneOf`, `enum`, `$ref`, `type`, and a
node matching none of them is reported as unsupported
(`NotImplementedError`). The `properties` loop appends a
whitespace-tolerant comma after every entry except the last, which is
the same string as interleaving the separator between the parts. In the
string-length branch the result of the bounds comparison is discarded:
the `ValueError` it raises is caught by the surrounding handler, so only
a `TypeError` from `int()` (non-string, non-numeric bound) escapes. -/
def to_regex : Nat → Resolver → Jdict → Except JErr String
  | 0, _, _ => .error JErr.fuelOut
  | fuel + 1, res, inst =>
    match lookupKey inst "properties" with
    | some (.obj props) => do
        let parts ← props.mapM (fun p => do
          let vd ← asObj p.2
          let r ← to_regex fuel res vd
          pure (whitespace ++ "\"" ++ p.1 ++ "\"" ++ whitespace ++ ":" ++ whitespace ++ r))
        pure ("\\\x7b" ++ String.intercalate (whitespace ++ ",") parts
          ++ whitespace ++ "\\\x7d")
    | some _ => .error JErr.typeErr
    | none =>
    match lookupKey inst "allOf" with
    | some (.arr ts) => do
        let subs ← ts.mapM (fun t => do to_regex fuel res (← asObj t))
        pure ("(" ++ String.join subs ++ ")")
    | some _ => .error JErr.typeErr
    | none =>
    match lookupKey inst "anyOf" with
    | some (.arr ts) => do
        let subs ← ts.mapM (fun t => do to_regex fuel res (← asObj t))
        pure ("(" ++ String.intercalate "|" (anyOfCombos subs) ++ ")")
    | some _ => .error JErr.typeErr
    | none =>
    match lookupKey inst "oneOf" with
    | some (.arr ts) => do
        let subs ← ts.mapM (fun t => do to_regex fuel res (← asObj t))
        pure ("(" ++ String.intercalate "|" subs ++ ")")
    | some _ => .error JErr.typeErr
    | none =>
    match lookupKey inst "enum" with
    | some (.arr choices) =>
        (match lookupKey inst "type" with
        | none => .error (JErr.keyError "type")
        | some (.str "string") => do
            let cs ← choices.mapM (fun c =>
              match c with
              | .str s => Except.ok ("\"" ++ reEscape s ++ "\"")
              | _ => Except.error JErr.typeErr)
            pure ("(" ++ String.intercalate "|" cs ++ ")")
        | some _ =>
            pure ("(" ++ String.intercalate "|"
              (choices.map (fun c => reEscape (pyStr c))) ++ ")"))
    | some _ => .error JErr.typeErr
    | none =>
    match lookupKey inst "$ref" with
    | some v =>
        (let path := pyStr v
        match res path with
        | none => .error (JErr.refError path)
        | some contents => do to_regex fuel res (← asObj contents))
    | none =>
    match lookupKey inst "type" with
    | some (.str "string") =>
        let maxV := lookupKey inst "maxLength"
        let minV := lookupKey inst "minLength"
        if maxV.isSome || minV.isSome then
          let maxS := match maxV with | some v => pyStr v | none => ""
          let minS := match minV with | some v => pyStr v | none => ""
          match (match maxV with | some v => pyIntAttempt v | none => .ok none) with
          | .error e => .error e
          | .ok none =>
              .ok ("\"" ++ STRING_INNER ++ "\x7b" ++ minS ++ "," ++ maxS ++ "\x7d\"")
          | .ok (some _) =>
              match (match minV with | some v => pyIntAttempt v | none => .ok none) with
              | .error e => .error e
              | .ok _ =>
                  .ok ("\"" ++ STRING_INNER ++ "\x7b" ++ minS ++ "," ++ maxS ++ "\x7d\"")
        else
          match lookupKey inst "pattern" with
          | some (.str p) =>
              if p.length = 0 then .error JErr.indexError
              else if p.front = '^' && p.back = '$' then
                .ok ("(^\"" ++ (p.drop 1).dropRight 1 ++ "\"$)")
              else
                .ok ("(\"" ++ p ++ "\")")
          | some _ => .error JErr.typeErr
          | none => .ok STRING
    | some (.str "number") => .ok NUMBER
    | some (.str "integer") => .ok INTEGER
    | some (.str "array") =>
        (match lookupKey inst "items" with
        | some v => do
            let d ← asObj v
            let f ← to_regex fuel res d
            pure ("\\[(" ++ f ++ ")(,(" ++ f ++ "))*\\]")
        | none => do
            let rs ← arrayDefaultItemTypes.mapM (to_regex fuel res)
            let alts := String.intercalate "|" rs
            pure ("\\[(" ++ alts ++ ")(,(" ++ alts ++ "))*\\]"))
    | some (.str "boolean") => .ok BOOLEAN
    | some (.str "null") => .ok NULL
    | some (.arr types) => do
        let rs ← (types.filter (fun t =>
            match t with | .str "object" => false | _ => true)).mapM
          (fun t => to_regex fuel res [("type", t)])
        pure ("(" ++ String.intercalate "|" rs ++ ")")
    | _ => .error (JErr.unsupported inst)

/-- A sequence of plain characters, over a character list. -/
def litL (cs : List Char) : RSyn :=
  cs.foldr (fun c r => RSyn.cat (RSyn.chr c) r) RSyn.eps

/-- The class items of the whitespace fragment. -/
def wsItems : List CItem := [CItem.one (CChar.lit '\n'), CItem.one (CChar.lit ' ')]

/-- A resolver with no registered references. -/
def emptyResolver : Resolver := fun _ => none

/-- A resolver holding one local definition, for exercising `$ref`. -/
def unitResolver : Resolver := fun p =>
  if p == "#/$defs/d" then some (JVal.obj [("type", JVal.str "null")]) else none

/-- The object schema of the spec's running example: properties `a`
(string) then `b` (integer), in that declaration order. -/
def c1Schema : Jdict :=
  [("properties", JVal.obj
    [("a", JVal.obj [("type", JVal.str "string")]),
     ("b", JVal.obj [("type", JVal.str "integer")])])]

/-- The fragment the translator emits for `c1Schema`: literal brace,
then each property in declaration order as whitespace, quoted name,
whitespace, colon, whitespace, value fragment, with a
whitespace-tolerant comma between consecutive properties and none after
the last, ending with whitespace and a closing brace. -/
def c1String : String :=
  "\\\x7b" ++ whitespace ++ "\"a\"" ++ whitespace ++ ":" ++ whitespace ++ STRING
    ++ whitespace ++ "," ++ whitespace ++ "\"b\"" ++ whitespace ++ ":" ++ whitespace
    ++ INTEGER ++ whitespace ++ "\\\x7d"

/-- Syntax-level regex of `c1String`. -/
def c1Syn : RSyn :=
  seqList [RSyn.esc '\x7b', wsSyn, qlit "a", wsSyn, RSyn.chr ':', wsSyn, stringSyn,
    wsSyn, RSyn.chr ',', wsSyn, qlit "b", wsSyn, RSyn.chr ':', wsSyn, integerSyn,
    wsSyn, RSyn.esc '\x7d']

/-- An `anyOf` schema with two subschemas: string, then integer. -/
def c2Schema : Jdict :=
  [("anyOf", JVal.arr
    [JVal.obj [("type", JVal.str "string")],
     JVal.obj [("type", JVal.str "integer")]])]

/-- A string leaf with `minLength` 2 and `maxLength` 4. -/
def c4Schema : Jdict :=
  [("type", JVal.str "string"), ("minLength", JVal.int 2), ("maxLength", JVal.int 4)]

/-- Syntax-level regex of the bounded string fragment for `c4Schema`. -/
def c4Syn : RSyn :=
  RSyn.cat (RSyn.chr '"') (RSyn.cat (RSyn.rep stringInnerSyn 2 4) (RSyn.chr '"'))

/-- The enum value list `["red","green","blue"]`. -/
def rgbEnum : JVal := JVal.arr [JVal.str "red", JVal.str "green", JVal.str "blue"]

/-- The fragment emitted for the red/green/blue string enum. -/
def c5String : String := "(\"red\"|\"green\"|\"blue\")"

/-- Syntax-level regex of `c5String`. -/
def enumSyn : RSyn :=
  RSyn.grp (RSyn.alt (RSyn.alt (qlit "red") (qlit "green")) (qlit "blue"))

/-- An integer-array schema. -/
def c7Schema : Jdict :=
  [("type", JVal.str "array"), ("items", JVal.obj [("type", JVal.str "integer")])]

/-- The fragment emitted for `c7Schema`. -/
def c7String : String := "\\[(" ++ INTEGER ++ ")(,(" ++ INTEGER ++ "))*\\]"

/-- Syntax-level regex of `c7String`. -/
def c7Syn : RSyn :=
  seqList [RSyn.esc '[', RSyn.grp integerSyn,
    RSyn.star (RSyn.grp (RSyn.cat (RSyn.chr ',') (RSyn.grp integerSyn))),
    RSyn.esc ']']

namespace Rgx

theorem rmatch_zero (w : List Char) : rmatch zero w = false := by
  induction w with
  | nil => rfl
  | cons c w ih => simpa [rmatch, deriv] using ih

theorem rmatch_eps_iff (w : List Char) : rmatch eps w = true ↔ w = [] := by
  cases w with
  | nil => simp [rmatch, matchEps]
  | cons c w => simp [rmatch, deriv, rmatch_zero]

theorem rmatch_pred_iff (p : Char → Bool) (w : List Char) :
    rmatch (pred p) w = true ↔ ∃ c, p c = true ∧ w = [c] := by
  cases w with
  | nil => simp [rmatch, matchEps]
  | cons c w =>
    cases w with
    | nil =>
      rw [rmatch, deriv]
      by_cases hc : p c = true
      · simp [hc, rmatch, matchEps]
      · simp only [Bool.not_eq_true] at hc
        simp only [hc]
        simp only [if_neg (by simp [hc] : ¬ (false = true))]
        constructor
        · intro h; exact absurd h (by simp [rmatch_zero])
        · rintro ⟨d, hd, hw⟩
          cases hw
          simp [hd] at hc
    | cons d w =>
      rw [rmatch, deriv]
      by_cases hc : p c
      · simp only [if_pos hc, rmatch, deriv, rmatch_zero]
        constructor
        · intro h; cases h
        · rintro ⟨e, _, hw⟩; cases hw
      · simp only [if_neg hc, rmatch_zero]
        constructor
        · intro h; cases h
        · rintro ⟨e, _, hw⟩; cases hw

theorem rmatch_plus_iff (P Q : Rgx) (w : List Char) :
    rmatch (plus P Q) w = true ↔ rmatch P w = true ∨ rmatch Q w = true := by
  induction w generalizing P Q with
  | nil => simp [rmatch, matchEps]
  | cons c w ih => rw [rmatch, deriv]; exact ih _ _

theorem rmatch_comp_iff (P Q : Rgx) (w : List Char) :
    rmatch (comp P Q) w = true ↔
      ∃ u v, w = u ++ v ∧ rmatch P u = true ∧ rmatch Q v = true := by
  induction w generalizing P Q with
  | nil =>
    rw [rmatch]
    simp only [matchEps, Bool.and_eq_true]
    constructor
    · rintro ⟨hP, hQ⟩
      exact ⟨[], [], rfl, hP, hQ⟩
    · rintro ⟨u, v, huv, hP, hQ⟩
      rcases List.append_eq_nil.mp huv.symm with ⟨hu, hv⟩
      subst hu; subst hv
      exact ⟨hP, hQ⟩
  | cons c w ih =>
    rw [rmatch, deriv]
    by_cases hn : P.matchEps
    · rw [if_pos hn, rmatch_plus_iff, ih]
      constructor
      · rintro (⟨u, v, huv, hP, hQ⟩ | hQ)
        · exact ⟨c :: u, v, by simp [huv], hP, hQ⟩
        · exact ⟨[], c :: w, rfl, hn, hQ⟩
      · rintro ⟨u, v, huv, hP, hQ⟩
        cases u with
        | nil =>
          right
          simp only [List.nil_append] at huv
          rwa [← huv] at hQ
        | cons b u =>
          left
          rw [List.cons_append] at huv
          obtain ⟨hb, hw⟩ := List.cons_eq_cons.mp huv
          subst hb
          exact ⟨u, v, hw, hP, hQ⟩
    · rw [if_neg hn, ih]
      constructor
      · rintro ⟨u, v, huv, hP, hQ⟩
        exact ⟨c :: u, v, by simp [huv], hP, hQ⟩
      · rintro ⟨u, v, huv, hP, hQ⟩
        cases u with
        | nil =>
          simp only [List.nil_append] at huv
          rw [rmatch] at hP
          exact absurd hP (by simp [hn])
        | cons b u =>
          rw [List.cons_append] at huv
          obtain ⟨hb, hw⟩ := List.cons_eq_cons.mp huv
          subst hb
          exact ⟨u, v, hw, hP, hQ⟩

theorem rmatch_star_iff (P : Rgx) :
    ∀ w : List Char, rmatch (star P) w = true ↔
      ∃ L : List (List Char), w = L.flatten ∧ ∀ u ∈ L, u ≠ [] ∧ rmatch P u = true := by
  intro w
  have IH := fun u (_ : u.length < w.length) => rmatch_star_iff P u
  clear rmatch_star_iff
  constructor
  · cases w with
    | nil =>
      intro _
      exact ⟨[], rfl, by simp⟩
    | cons c w =>
      rw [rmatch, deriv, rmatch_comp_iff]
      rintro ⟨u, v, huv, hu, hv⟩
      have hlen : v.length < (c :: w).length := by
        rw [huv, List.length_cons, List.length_append]
        omega
      obtain ⟨L, hL, hmem⟩ := (IH v hlen).mp hv
      refine ⟨(c :: u) :: L, by simp [huv, hL], ?_⟩
      intro t ht
      rcases List.mem_cons.mp ht with h | h
      · subst h
        exact ⟨by simp, by rw [rmatch]; exact hu⟩
      · exact hmem t h
  · rintro ⟨L, hL, hmem⟩
    cases w with
    | nil => rfl
    | cons c w =>
      rw [rmatch, deriv, rmatch_comp_iff]
      induction L with
      | nil => simp at hL
      | cons t L ihL =>
        cases t with
        | nil =>
          exact absurd rfl (hmem [] (List.mem_cons_self _ _)).1
        | cons b t =>
          simp only [List.flatten, List.cons_append] at hL
          obtain ⟨hb, hw⟩ := List.cons_eq_cons.mp hL
          subst hb
          refine ⟨t, L.flatten, hw, ?_, ?_⟩
          · have := (hmem (c :: t) (List.mem_cons_self _ _)).2
            rwa [rmatch] at this
          · have hlen : L.flatten.length < (c :: w).length := by
              rw [hw]
              simp only [List.length_cons, List.length_append]
              omega
            rw [IH _ hlen]
            exact ⟨L, rfl, fun u hu => hmem u (List.mem_cons_of_mem _ hu)⟩
termination_by w => w.length

theorem rmatch_iff_matches' (P : Rgx) (w : List Char) :
    P.rmatch w = true ↔ w ∈ P.matches' := by
  induction P generalizing w with
  | zero => simp [rmatch_zero, matches']
  | eps =>
    rw [rmatch_eps_iff, matches']
    exact (Language.mem_one w).symm
  | pred p =>
    rw [rmatch_pred_iff]
    exact Iff.rfl
  | plus P Q ihP ihQ =>
    rw [rmatch_plus_iff, matches', Language.mem_add, ihP, ihQ]
  | comp P Q ihP ihQ =>
    rw [rmatch_comp_iff, matches', Language.mem_mul]
    constructor
    · rintro ⟨u, v, huv, hu, hv⟩
      exact ⟨u, (ihP u).mp hu, v, (ihQ v).mp hv, huv.symm⟩
    · rintro ⟨u, hu, v, hv, huv⟩
      exact ⟨u, v, huv.symm, (ihP u).mpr hu, (ihQ v).mpr hv⟩
  | star P ihP =>
    rw [rmatch_star_iff, matches', Language.mem_kstar]
    constructor
    · rintro ⟨L, hL, hmem⟩
      exact ⟨L, hL, fun u hu => (ihP u).mp (hmem u hu).2⟩
    · rintro ⟨L, hL, hmem⟩
      refine ⟨L.filter (fun u => !u.isEmpty),
        by simp [hL, List.flatten_filter_not_isEmpty], ?_⟩
      intro u hu
      rw [List.mem_filter] at hu
      refine ⟨?_, (ihP u).mpr (hmem u hu.1)⟩
      intro hnil
      subst hnil
      simp at hu

end Rgx

theorem stringInnerSyn_render : stringInnerSyn.render = STRING_INNER := by decide

theorem stringSyn_render : stringSyn.render = STRING := by decide

theorem integerSyn_render : integerSyn.render = INTEGER := by decide

theorem numberSyn_render : numberSyn.render = NUMBER := by decide

theorem wsSyn_render : wsSyn.render = whitespace := by decide

theorem Rgx.mem_of_rmatch {P : Rgx} {w : List Char} (h : P.rmatch w = true) :
    w ∈ P.matches' :=
  (Rgx.rmatch_iff_matches' P w).mp h

theorem Rgx.not_mem_of_rmatch {P : Rgx} {w : List Char} (h : P.rmatch w = false) :
    w ∉ P.matches' := by
  intro hm
  rw [(Rgx.rmatch_iff_matches' P w).mpr hm] at h
  cases h

theorem mem_comp_of {P Q : Rgx} {u v : List Char}
    (hu : u ∈ P.matches') (hv : v ∈ Q.matches') :
    u ++ v ∈ (Rgx.comp P Q).matches' :=
  Language.append_mem_mul hu hv

theorem litSyn_eq_litL (s : String) : litSyn s = litL s.data := rfl

/-- A literal-character chain matches exactly its own spelling. -/
theorem litL_mem_iff : ∀ (cs w : List Char),
    w ∈ ((litL cs).core).matches' ↔ w = cs := by
  intro cs
  induction cs with
  | nil =>
    intro w
    simp only [litL, List.foldr_nil, RSyn.core, Rgx.matches']
    exact Language.mem_one w
  | cons c cs ih =>
    intro w
    have hshape : (litL (c :: cs)).core
        = Rgx.comp (Rgx.pred (fun x => x == c)) (litL cs).core := rfl
    rw [hshape]
    show w ∈ (Rgx.pred (fun x => x == c)).matches' * (litL cs).core.matches' ↔ _
    rw [Language.mem_mul]
    constructor
    · rintro ⟨a, ha, b, hb, hw⟩
      obtain ⟨d, hd, rfl⟩ := ha
      rw [beq_iff_eq] at hd
      subst hd
      rw [(ih b).mp hb] at hw
      exact hw.symm
    · rintro rfl
      exact ⟨[c], ⟨c, by simp, rfl⟩, cs, (ih cs).mpr rfl, rfl⟩

theorem litSyn_mem_iff (s : String) (w : List Char) :
    w ∈ ((litSyn s).core).matches' ↔ w = s.data :=
  litL_mem_iff s.data w

/-- Any run of newlines and spaces matches the whitespace fragment. -/
theorem wsRun_mem {w : List Char} (h : ∀ c ∈ w, c = '\n' ∨ c = ' ') :
    w ∈ (wsSyn.core).matches' := by
  have hflat : (w.map (fun c => [c])).flatten = w := by
    induction w with
    | nil => rfl
    | cons c w ih => simp_all
  show w ∈ KStar.kstar (Rgx.pred (clsTest false wsItems)).matches'
  rw [← hflat]
  apply Language.join_mem_kstar
  intro y hy
  obtain ⟨c, hc, rfl⟩ := List.mem_map.mp hy
  refine ⟨c, ?_, rfl⟩
  rcases h c hc with rfl | rfl <;> decide

/-- Membership of a fragment sequence: if each fragment matches its
piece, the concatenation of the pieces matches the sequence. -/
theorem seqList_mem {rs : List RSyn} {us : List (List Char)}
    (h : List.Forall₂ (fun r u => u ∈ ((RSyn.core r).matches')) rs us) :
    us.flatten ∈ ((seqList rs).core).matches' := by
  induction h with
  | nil =>
    show [] ∈ (1 : Language Char)
    exact (Language.mem_one []).mpr rfl
  | cons hru htail ih =>
    simp only [List.flatten_cons]
    exact mem_comp_of hru ih

/-- C3: translating a node whose only dispatched keyword is a reference
equals translating the node the reference resolves to, with the same
resolver on both sides (no new resolver is constructed; fuel accounts
for the extra recursive step the reference costs). -/
theorem claim_C3 (fuel : Nat) (res : Resolver) (path : String) (M : Jdict)
    (h : res path = some (JVal.obj M)) :
    to_regex (fuel + 1) res [("$ref", JVal.str path)] = to_regex fuel res M := by
  have hstep : to_regex (fuel + 1) res [("$ref", JVal.str path)]
      = (match res path with
         | none => Except.error (JErr.refError path)
         | some contents => do to_regex fuel res (← asObj contents)) := rfl
  rw [hstep, h]
  rfl

/-- Witness for C3: a one-definition resolver, a `$ref` node pointing at
it, and the translation of the reference equal to the translation of the
resolved definition. -/
theorem claim_C3_witness :
    to_regex 2 unitResolver [("$ref", JVal.str "#/$defs/d")]
      = to_regex 1 unitResolver [("type", JVal.str "null")] :=
  claim_C3 1 unitResolver "#/$defs/d" [("type", JVal.str "null")] rfl

/-- C6: a node matching none of the dispatch branches — the empty object,
or a node whose `type` is a string the leaf dispatch does not recognize —
fails with the unsupported-schema error naming the offending node, and no
fragment is produced. -/
theorem claim_C6 :
    (∀ (fuel : Nat) (res : Resolver),
      to_regex (fuel + 1) res [] = .error (JErr.unsupported []))
    ∧ (∀ (fuel : Nat) (res : Resolver),
      to_regex (fuel + 1) res [("type", JVal.str "object")]
        = .error (JErr.unsupported [("type", JVal.str "object")])) :=
  ⟨fun _ _ => rfl, fun _ _ => rfl⟩

/-- C8: dispatch precedence. On a node carrying two dispatched keywords,
the earlier keyword in the order `properties`, `allOf`, `anyOf`, `oneOf`,
`enum`, `$ref`, `type` decides the result: each conjunct shows a two-key
node translating identically to the node with the later key removed. -/
theorem claim_C8 :
    (∀ (fuel : Nat) (res : Resolver),
      to_regex (fuel + 1) res [("properties", JVal.obj []), ("allOf", JVal.arr [])]
        = to_regex (fuel + 1) res [("properties", JVal.obj [])])
    ∧ (∀ (fuel : Nat) (res : Resolver),
      to_regex (fuel + 1) res [("properties", JVal.obj []), ("type", JVal.str "string")]
        = to_regex (fuel + 1) res [("properties", JVal.obj [])])
    ∧ (∀ (fuel : Nat) (res : Resolver),
      to_regex (fuel + 1) res [("allOf", JVal.arr []), ("anyOf", JVal.arr [])]
        = to_regex (fuel + 1) res [("allOf", JVal.arr [])])
    ∧ (∀ (fuel : Nat) (res : Resolver),
      to_regex (fuel + 1) res [("anyOf", JVal.arr []), ("oneOf", JVal.arr [])]
        = to_regex (fuel + 1) res [("anyOf", JVal.arr [])])
    ∧ (∀ (fuel : Nat) (res : Resolver),
      to_regex (fuel + 1) res [("oneOf", JVal.arr []), ("enum", JVal.arr [JVal.str "x"])]
        = to_regex (fuel + 1) res [("oneOf", JVal.arr [])])
    ∧ (∀ (fuel : Nat) (res : Resolver),
      to_regex (fuel + 1) res
          [("enum", JVal.arr [JVal.str "x"]), ("type", JVal.str "string"),
           ("$ref", JVal.str "p")]
        = to_regex (fuel + 1) res
          [("enum", JVal.arr [JVal.str "x"]), ("type", JVal.str "string")])
    ∧ (∀ (fuel : Nat) (res : Resolver),
      to_regex (fuel + 1) res [("$ref", JVal.str "p"), ("type", JVal.str "null")]
        = to_regex (fuel + 1) res [("$ref", JVal.str "p")]) :=
  ⟨fun _ _ => rfl, fun _ _ => rfl, fun _ _ => rfl, fun _ _ => rfl,
   fun _ _ => rfl, fun _ _ => rfl, fun _ _ => rfl⟩

/-- C9: the canonical number fragment is an optional leading minus, an
integer body (`0` or a non-zero digit then digits), an optional
fractional part, and an optional exponent with a required sign; so
`-1.5e+10` and `0.2` match while the unsigned-exponent text `1e5` does
not. -/
theorem claim_C9 :
    NUMBER = "(-)?((0|[1-9][0-9]*))(\\.[0-9]+)?([eE][+-][0-9]+)?"
    ∧ (∀ (fuel : Nat) (res : Resolver),
        to_regex (fuel + 1) res [("type", JVal.str "number")] = .ok NUMBER)
    ∧ numberSyn.render = NUMBER
    ∧ "-1.5e+10".data ∈ (numberSyn.core).matches'
    ∧ "0.2".data ∈ (numberSyn.core).matches'
    ∧ "1e5".data ∉ (numberSyn.core).matches' :=
  ⟨by decide, fun _ _ => rfl, numberSyn_render,
   Rgx.mem_of_rmatch (by decide), Rgx.mem_of_rmatch (by decide),
   Rgx.not_mem_of_rmatch (by decide)⟩

/-- C10: a string leaf whose `pattern` is the empty string faults with an
indexing error (the anchor check reads the pattern's first character
unguarded) instead of returning a fragment. -/
theorem claim_C10 (fuel : Nat) (res : Resolver) :
    to_regex (fuel + 1) res [("type", JVal.str "string"), ("pattern", JVal.str "")]
      = .error JErr.indexError := rfl

/-- The red/green/blue alternation matches exactly its three quoted
literals. -/
theorem enumSyn_mem_iff (w : List Char) :
    w ∈ ((enumSyn.core).matches') ↔
      (w = "\"red\"".data ∨ w = "\"green\"".data ∨ w = "\"blue\"".data) := by
  have hshape : enumSyn.core
      = Rgx.plus (Rgx.plus ((litSyn "\"red\"").core) ((litSyn "\"green\"").core))
          ((litSyn "\"blue\"").core) := rfl
  rw [hshape]
  show w ∈ ((litSyn "\"red\"").core.matches' + (litSyn "\"green\"").core.matches')
      + (litSyn "\"blue\"").core.matches' ↔ _
  rw [Language.mem_add, Language.mem_add, litSyn_mem_iff, litSyn_mem_iff,
    litSyn_mem_iff]
  tauto

/-- C4: a string leaf with length bounds emits a quoted inner-character
body whose repetition range uses the given bounds verbatim, an absent
bound left empty; inconsistent bounds (`maxLength` < `minLength`) are
swallowed and still used verbatim, with no error surfacing; and for
bounds 2 and 4 the quantifier is exactly `{2,4}`, accepting quoted

bodies of length 2, 3, 4 and rejecting lengths 1 and 5. -/
theorem claim_C4 :
    (∀ (fuel : Nat) (res : Resolver) (m n : Int),
      to_regex (fuel + 1) res
          [("type", JVal.str "string"), ("minLength", JVal.int m),
           ("maxLength", JVal.int n)]
        = .ok ("\"" ++ STRING_INNER ++ "\x7b" ++ toString m ++ "," ++ toString n
            ++ "\x7d\""))
    ∧ (∀ (fuel : Nat) (res : Resolver) (m : Int),
      to_regex (fuel + 1) res [("type", JVal.str "string"), ("minLength", JVal.int m)]
        = .ok ("\"" ++ STRING_INNER ++ "\x7b" ++ toString m ++ "," ++ "" ++ "\x7d\""))
    ∧ (∀ (fuel : Nat) (res : Resolver) (n : Int),
      to_regex (fuel + 1) res [("type", JVal.str "string"), ("maxLength", JVal.int n)]
        = .ok ("\"" ++ STRING_INNER ++ "\x7b" ++ "" ++ "," ++ toString n ++ "\x7d\""))
    ∧ to_regex 1 emptyResolver c4Schema = .ok ("\"" ++ STRING_INNER ++ "\x7b2,4\x7d\"")
    ∧ to_regex 1 emptyResolver
        [("type", JVal.str "string"), ("minLength", JVal.int 4),
         ("maxLength", JVal.int 2)]
        = .ok ("\"" ++ STRING_INNER ++ "\x7b4,2\x7d\"")
    ∧ c4Syn.render = "\"" ++ STRING_INNER ++ "\x7b2,4\x7d\""
    ∧ "\"ab\"".data ∈ (c4Syn.core).matches'
    ∧ "\"abc\"".data ∈ (c4Syn.core).matches'
    ∧ "\"abcd\"".data ∈ (c4Syn.core).matches'
    ∧ "\"a\"".data ∉ (c4Syn.core).matches'
    ∧ "\"abcde\"".data ∉ (c4Syn.core).matches' :=
  ⟨fun _ _ _ _ => rfl, fun _ _ _ => rfl, fun _ _ _ => rfl, rfl, rfl, by decide,
   Rgx.mem_of_rmatch (by decide), Rgx.mem_of_rmatch (by decide),
   Rgx.mem_of_rmatch (by decide), Rgx.not_mem_of_rmatch (by decide),
   Rgx.not_mem_of_rmatch (by decide)⟩

/-- Counterexample to C5 as stated: on an enum node with no declared
`type` at all, the translator does not render the members via their
default textual representation — it faults with a key-lookup error on
`type` and returns no fragment. -/
theorem claim_C5_counterexample :
    to_regex 1 emptyResolver [("enum", rgbEnum)] = .error (JErr.keyError "type") := rfl

/-- C5 (amended): an enum node whose declared `type` is `string` renders
each member as a double-quoted regex-escaped literal; a declared
non-string `type` renders each member via its default textual
representation, regex-escaped; a node with `enum` but no `type` key at
all faults with a key-lookup error instead of falling to the
default-rendering branch. For red/green/blue with string type the
fragment matches exactly the three quoted literals. -/
theorem claim_C5 :
    (∀ (fuel : Nat) (res : Resolver),
      to_regex (fuel + 1) res [("enum", rgbEnum), ("type", JVal.str "string")]
        = .ok c5String)
    ∧ (∀ (fuel : Nat) (res : Resolver),
      to_regex (fuel + 1) res
          [("enum", JVal.arr [JVal.int 1, JVal.int 2]), ("type", JVal.str "integer")]
        = .ok "(1|2)")
    ∧ (∀ (fuel : Nat) (res : Resolver),
      to_regex (fuel + 1) res [("enum", rgbEnum)] = .error (JErr.keyError "type"))
    ∧ enumSyn.render = c5String
    ∧ (∀ w : List Char,
        w ∈ ((enumSyn.core).matches') ↔
          (w = "\"red\"".data ∨ w = "\"green\"".data ∨ w = "\"blue\"".data)) :=
  ⟨fun _ _ => rfl, fun _ _ => rfl, fun _ _ => rfl, by decide, enumSyn_mem_iff⟩

/-- C7: an array leaf with `items` translates the item schema once to a
fragment `F` and emits `\[(F)(,(F))*\]`, so at least one item is always
required: `[1,2,3]` and `[1]` match the integer-array fragment while the
empty array `[]` never does. -/
theorem claim_C7 :
    (∀ (fuel : Nat) (res : Resolver) (d : Jdict) (F : String),
      to_regex fuel res d = .ok F →
      to_regex (fuel + 1) res [("type", JVal.str "array"), ("items", JVal.obj d)]
        = .ok ("\\[(" ++ F ++ ")(,(" ++ F ++ "))*\\]"))
    ∧ (∀ (fuel : Nat) (res : Resolver),
        to_regex (fuel + 2) res c7Schema = .ok c7String)
    ∧ c7Syn.render = c7String
    ∧ "[1,2,3]".data ∈ (c7Syn.core).matches'
    ∧ "[1]".data ∈ (c7Syn.core).matches'
    ∧ "[]".data ∉ (c7Syn.core).matches' := by
  refine ⟨?_, fun _ _ => rfl, by decide, Rgx.mem_of_rmatch (by decide),
    Rgx.mem_of_rmatch (by decide), Rgx.not_mem_of_rmatch (by decide)⟩
  intro fuel res d F h
  have hstep : to_regex (fuel + 1) res
      [("type", JVal.str "array"), ("items", JVal.obj d)]
      = (do
          let f ← to_regex fuel res d
          pure ("\\[(" ++ f ++ ")(,(" ++ f ++ "))*\\]")) := rfl
  rw [hstep, h]
  rfl

/-- Witness for C7: the general items rule applied to the integer item
schema. -/
theorem claim_C7_witness :
    to_regex 2 emptyResolver
        [("type", JVal.str "array"), ("items", JVal.obj [("type", JVal.str "integer")])]
      = .ok ("\\[(" ++ INTEGER ++ ")(,(" ++ INTEGER ++ "))*\\]") :=
  claim_C7.1 1 emptyResolver [("type", JVal.str "integer")] INTEGER rfl

theorem flatMapLenSum (l : List α) (f : α → List β) :
    (l.flatMap f).length = (l.map (fun a => (f a).length)).sum := by
  induction l with
  | nil => rfl
  | cons x xs ih => simp [List.flatMap_cons, ih]

/-- `itertools.permutations(l, r)` yields `n!/(n-r)!` arrangements. -/
theorem pyPermutations_length (r : Nat) :
    ∀ (l : List α), (pyPermutations r l).length = Nat.descFactorial l.length r := by
  induction r with
  | zero => intro l; simp [pyPermutations]
  | succ r ih =>
    intro l
    rw [pyPermutations, flatMapLenSum]
    have hmap : l.enum.map
        (fun p => ((pyPermutations r (l.eraseIdx p.1)).map (fun q => p.2 :: q)).length)
        = l.enum.map (fun _ => Nat.descFactorial (l.length - 1) r) := by
      apply List.map_congr_left
      intro p hp
      rw [List.length_map, ih]
      have hget := List.mem_enum_iff_getElem?.mp hp
      obtain ⟨hlt, _⟩ := List.getElem?_eq_some_iff.mp hget
      rw [List.length_eraseIdx]
      simp [hlt]
    rw [hmap, List.map_const', List.sum_const_nat, List.enum_length]
    cases l with
    | nil => simp [Nat.descFactorial]
    | cons x xs =>
      simp only [List.length_cons, Nat.add_sub_cancel]
      rw [Nat.succ_descFactorial_succ]

theorem sumRangeMap (f : Nat → Nat) :
    ∀ (n s : Nat), ((List.range' s n).map f).sum = ∑ k ∈ Finset.range n, f (s + k) := by
  intro n
  induction n with
  | zero => intro s; simp
  | succ n ih =>
    intro s
    rw [List.range'_succ, List.map_cons, List.sum_cons, ih (s + 1),
      Finset.sum_range_succ' (fun k => f (s + k)) n]
    have h1 : ∀ i, s + 1 + i = s + (i + 1) := by intro i; omega
    simp only [h1, Nat.add_zero]
    exact Nat.add_comm _ _

/-- The `anyOf` alternative list has `Σ_(k=1..N) N!/(N-k)!` entries
(in descending-factorial form). -/
theorem anyOfCombos_length (subs : List String) :
    (anyOfCombos subs).length
      = ∑ k ∈ Finset.Icc 1 subs.length, Nat.descFactorial subs.length k := by
  rw [anyOfCombos, flatMapLenSum]
  have hmap : (List.range' 1 subs.length).map
      (fun r => ((pyPermutations r subs).map
        (fun c => "(" ++ String.join c ++ ")")).length)
      = (List.range' 1 subs.length).map (fun r => Nat.descFactorial subs.length r) := by
    apply List.map_congr_left
    intro r _
    rw [List.length_map, pyPermutations_length]
  rw [hmap, sumRangeMap, ← Nat.Ico_succ_right, Finset.sum_Ico_eq_sum_range]
  simp [Nat.add_comm]

/-- C2: the `anyOf` branch joins, inside a group, one alternative per
ordered arrangement of each non-empty subset of the child fragments (the
concatenation of the arrangement), giving `Σ_(k=1..N) N!/(N-k)!`
alternatives in total; for two subschemas A, B the four alternatives are
A, B, AB and BA in that order, as the concrete string-then-integer

schema shows. -/
theorem claim_C2 :
    (∀ (subs : List String),
      (anyOfCombos subs).length
        = ∑ k ∈ Finset.Icc 1 subs.length,
            Nat.factorial subs.length / Nat.factorial (subs.length - k))
    ∧ (∀ (fuel : Nat) (res : Resolver) (ts : List JVal) (subs : List String),
        ts.mapM (fun t => do to_regex fuel res (← asObj t)) = Except.ok subs →
        to_regex (fuel + 1) res [("anyOf", JVal.arr ts)]
          = .ok ("(" ++ String.intercalate "|" (anyOfCombos subs) ++ ")"))
    ∧ anyOfCombos ["A", "B"] = ["(A)", "(B)", "(AB)", "(BA)"]
    ∧ (∀ (fuel : Nat) (res : Resolver),
        to_regex (fuel + 2) res c2Schema
          = .ok ("((" ++ STRING ++ ")|(" ++ INTEGER ++ ")|(" ++ STRING ++ INTEGER
              ++ ")|(" ++ INTEGER ++ STRING ++ "))")) := by
  refine ⟨?_, ?_, rfl, fun _ _ => rfl⟩
  · intro subs
    rw [anyOfCombos_length]
    apply Finset.sum_congr rfl
    intro k hk
    exact Nat.descFactorial_eq_div (Finset.mem_Icc.mp hk).2
  · intro fuel res ts subs h
    have hstep : to_regex (fuel + 1) res [("anyOf", JVal.arr ts)]
        = (do
            let subs ← ts.mapM (fun t => do to_regex fuel res (← asObj t))
            pure ("(" ++ String.intercalate "|" (anyOfCombos subs) ++ ")")) := rfl
    rw [hstep, h]
    rfl

/-- Witness for C2: the emission rule applied to the concrete
string-then-integer `anyOf` schema. -/
theorem claim_C2_witness :
    to_regex 2 emptyResolver
        [("anyOf", JVal.arr
          [JVal.obj [("type", JVal.str "string")],
           JVal.obj [("type", JVal.str "integer")]])]
      = .ok ("(" ++ String.intercalate "|" (anyOfCombos [STRING, INTEGER]) ++ ")") :=
  claim_C2.2.1 1 emptyResolver
    [JVal.obj [("type", JVal.str "string")], JVal.obj [("type", JVal.str "integer")]]
    [STRING, INTEGER] rfl

/-- C1: a `properties` node emits a literal opening brace, each declared
property in declaration order as whitespace, quoted name, whitespace,
colon, whitespace and value fragment, a whitespace-tolerant comma
between consecutive properties and none after the last, then whitespace
and a closing brace; consequently, for properties `a` (string) then `b`
(integer), the pattern accepts the object text with `a` before `b` under
arbitrary newline/space insertions at the token boundaries, and rejects
the same object with the keys in the other order. -/
theorem claim_C1 :
    (∀ (fuel : Nat) (res : Resolver), to_regex (fuel + 2) res c1Schema = .ok c1String)
    ∧ c1Syn.render = c1String
    ∧ (∀ w1 w2 w3 w4 w5 w6 w7 w8 : String,
        (∀ c ∈ w1.data, c = '\n' ∨ c = ' ') →
        (∀ c ∈ w2.data, c = '\n' ∨ c = ' ') →
        (∀ c ∈ w3.data, c = '\n' ∨ c = ' ') →
        (∀ c ∈ w4.data, c = '\n' ∨ c = ' ') →
        (∀ c ∈ w5.data, c = '\n' ∨ c = ' ') →
        (∀ c ∈ w6.data, c = '\n' ∨ c = ' ') →
        (∀ c ∈ w7.data, c = '\n' ∨ c = ' ') →
        (∀ c ∈ w8.data, c = '\n' ∨ c = ' ') →
        ("\x7b" ++ w1 ++ "\"a\"" ++ w2 ++ ":" ++ w3 ++ "\"x\"" ++ w4 ++ ","
          ++ w5 ++ "\"b\"" ++ w6 ++ ":" ++ w7 ++ "1" ++ w8 ++ "\x7d").data
          ∈ (c1Syn.core).matches')
    ∧ "\x7b\"b\": 1, \"a\": \"x\"\x7d".data ∉ (c1Syn.core).matches' := by
  refine ⟨fun _ _ => rfl, by decide, ?_, Rgx.not_mem_of_rmatch (by decide)⟩
  intro w1 w2 w3 w4 w5 w6 w7 w8 h1 h2 h3 h4 h5 h6 h7 h8
  have hf : List.Forall₂ (fun r u => u ∈ ((RSyn.core r).matches'))
      [RSyn.esc '\x7b', wsSyn, qlit "a", wsSyn, RSyn.chr ':', wsSyn, stringSyn,
       wsSyn, RSyn.chr ',', wsSyn, qlit "b", wsSyn, RSyn.chr ':', wsSyn, integerSyn,
       wsSyn, RSyn.esc '\x7d']
      ["\x7b".data, w1.data, "\"a\"".data, w2.data, ":".data, w3.data, "\"x\"".data,
       w4.data, ",".data, w5.data, "\"b\"".data, w6.data, ":".data, w7.data,
       "1".data, w8.data, "\x7d".data] :=
    .cons (Rgx.mem_of_rmatch (by decide))
    (.cons (wsRun_mem h1)
    (.cons (Rgx.mem_of_rmatch (by decide))
    (.cons (wsRun_mem h2)
    (.cons (Rgx.mem_of_rmatch (by decide))
    (.cons (wsRun_mem h3)
    (.cons (Rgx.mem_of_rmatch (by decide))
    (.cons (wsRun_mem h4)
    (.cons (Rgx.mem_of_rmatch (by decide))
    (.cons (wsRun_mem h5)
    (.cons (Rgx.mem_of_rmatch (by decide))
    (.cons (wsRun_mem h6)
    (.cons (Rgx.mem_of_rmatch (by decide))
    (.cons (wsRun_mem h7)
    (.cons (Rgx.mem_of_rmatch (by decide))
    (.cons (wsRun_mem h8)
    (.cons (Rgx.mem_of_rmatch (by decide)) .nil))))))))))))))))
  have hs := seqList_mem hf
  have heq : ("\x7b" ++ w1 ++ "\"a\"" ++ w2 ++ ":" ++ w3 ++ "\"x\"" ++ w4 ++ ","
      ++ w5 ++ "\"b\"" ++ w6 ++ ":" ++ w7 ++ "1" ++ w8 ++ "\x7d").data
      = ["\x7b".data, w1.data, "\"a\"".data, w2.data, ":".data, w3.data,
         "\"x\"".data, w4.data, ",".data, w5.data, "\"b\"".data, w6.data,
         ":".data, w7.data, "1".data, w8.data, "\x7d".data].flatten := by
    simp [String.data_append, List.flatten_cons, List.flatten_nil, List.append_assoc]
  rw [heq]
  exact hs

/-- Witness for C1: one concrete whitespace assignment accepted by the
object pattern. -/
theorem claim_C1_witness :
    ("\x7b" ++ "\n" ++ "\"a\"" ++ " " ++ ":" ++ "\n " ++ "\"x\"" ++ "" ++ ","
      ++ " \n" ++ "\"b\"" ++ "" ++ ":" ++ " " ++ "1" ++ "\n" ++ "\x7d").data
      ∈ ((c1Syn.core).matches') :=
  claim_C1.2.2.1 "\n" " " "\n " "" " \n" "" " " "\n"
    (by decide) (by decide) (by decide) (by decide)
    (by decide) (by decide) (by decide) (by decide)
